import Mathlib

/-!
Shallow embedding of the Ape-X actor pipeline of
`src/Code/DQN/Ape-X/container_mount/code/actor.py`.

The actor interacts with an Atari environment, preprocesses and stacks
frames, executes every chosen action for 4 consecutive emulator steps,
aggregates raw transitions into n-step transitions over a sliding window,
buffers them locally, publishes priority-scored batches to a shared queue,
and periodically reloads its policy parameters from a shared store.

External collaborators (the gym environment, the random sources, the
priority-scoring network method, the redis store/queue) are modelled as
oracles: functions of the number of calls made so far.  Machine floats are
modelled as exact rationals; the per-actor exploration exponent, which the
code raises `0.4` to as a float power, is kept as a rational exponent and
related to the real-valued power in the corresponding theorem.
-/

namespace ApeX

/-- A raw grayscale screen of the emulator: 210 x 160 pixels with byte
intensities (`env.ale.getScreenGrayscale` fills a `(210, 160)` `uint8`
array in `actor.py`). -/
abbrev Gray : Type := Fin 210 → Fin 160 → Fin 256

/-- A preprocessed frame tile: the 84 x 84 float image produced by
`Actor.preproc_state`, with pixel values modelled as rationals. -/
abbrev Tile : Type := Fin 84 → Fin 84 → ℚ

/-- Source coordinate of output pixel `i` under scale factor `scale`,
using the centered-coordinate convention of image resizing:
`(i + 1/2) * scale - 1/2`. -/
def srcCoord (scale : ℚ) (i : ℕ) : ℚ := ((i : ℚ) + 1/2) * scale - 1/2

/-- Clamp an integer pixel index into `[0, n-1]`. -/
def clampIdx (n : ℕ) (z : ℤ) : ℕ := min z.toNat (n - 1)

/-- Bilinear interpolation of `img` at fractional coordinates `(x, y)`,
with indices clamped to an `H x W` grid. -/
def bilinearAt (img : ℕ → ℕ → ℚ) (H W : ℕ) (x y : ℚ) : ℚ :=
  let r0 := clampIdx H ⌊x⌋
  let r1 := clampIdx H (⌊x⌋ + 1)
  let c0 := clampIdx W ⌊y⌋
  let c1 := clampIdx W (⌊y⌋ + 1)
  let dr := Int.fract x
  let dc := Int.fract y
  (1 - dr) * ((1 - dc) * img r0 c0 + dc * img r0 c1) +
    dr * ((1 - dc) * img r1 c0 + dc * img r1 c1)

/-- Modelled from the spec: `skimage.transform.resize` to `(84, 84)` with
`preserve_range=True` — external library code, not part of this repository.
The spec describes it as a range-preserving downsample to a fixed square
resolution; it is modelled as bilinear interpolation under the
centered-coordinate convention. -/
def resize84 (img : ℕ → ℕ → ℚ) : Tile :=
  fun i j => bilinearAt img 210 160 (srcCoord (210/84) i.val) (srcCoord (160/84) j.val)

/-- Pixel-wise maximum of the two stacked grayscale channels, as a total
rational-valued image: `np.amax(np.dstack((screen[:,:,0], screen[:,:,1])), axis=2)`
in `Actor.preproc_state`.  Out-of-range coordinates read 0 (never accessed
by the clamped interpolation). -/
def grayMaxImg (s0 s1 : Gray) : ℕ → ℕ → ℚ := fun r c =>
  if hr : r < 210 then
    if hc : c < 160 then
      ((max (s0 ⟨r, hr⟩ ⟨c, hc⟩).val (s1 ⟨r, hr⟩ ⟨c, hc⟩).val : ℕ) : ℚ)
    else 0
  else 0

/-- `Actor.preproc_state`: max-combine the two grayscale channels, resize
to 84 x 84, then scale to `[0, 1]` by dividing by 255. -/
def preproc (s0 s1 : Gray) : Tile :=
  fun i j => resize84 (grayMaxImg s0 s1) i j / 255

/-- `utils.Transition` as built by the actor: state and next state are
frame-stack snapshots, the action a discrete index, the reward a scalar,
`done` a flag. -/
structure Transition where
  state : List Tile
  action : ℕ
  reward : ℚ
  next_state : List Tile
  done : Bool
deriving Inhabited

/-- Configuration of one actor process (`Actor.__init__` arguments and the
constants set there). -/
structure Config where
  actor_no : ℕ
  num_total_actors : ℕ
  batch_size : ℕ
  nstep_return : ℕ
  gamma : ℚ
  buf_size : ℕ
  target_update : ℕ
  no_op_steps : ℕ
  mem_capacity : ℕ

/-- The defaults of `Actor.__init__`: `batch_size=50`, `nstep_return=3`,
`gamma=0.999`, `buf_size=4`, `target_update=200`, `num_total_actors=4`,
`self.no_op_steps = 30`, `ReplayMemory(1000)`. -/
def defaultConfig : Config :=
  { actor_no := 1
    num_total_actors := 4
    batch_size := 50
    nstep_return := 3
    gamma := 999/1000
    buf_size := 4
    target_update := 200
    no_op_steps := 30
    mem_capacity := 1000 }

/-- The environment collaborator, modelled as a trace: every call to
`env.reset` or `env.step` is one clock tick, and `reward`, `done` and the
grayscale `screen` readable after tick `k` are functions of `k`. -/
structure Env where
  reward : ℕ → ℚ
  done : ℕ → Bool
  screen : ℕ → Gray

/-- The random sources: `noop k` is the raw draw behind
`np.random.randint` at the `k`-th reset, `act t` the action returned by
`utils.epsilon_greedy` at decision step `t`. -/
structure Rng where
  noop : ℕ → ℕ
  act : ℕ → ℕ

/-- Modelled from the spec: the priority-scoring oracle
(`policy_net.calc_priorities`, external to this repository's `src/`).
Per the spec it returns one priority weight per transition of the batch. -/
structure PriorityOracle where
  prios : List Transition → ℚ → List ℚ
  prios_len : ∀ b g, (prios b g).length = b.length

/-- Modelled from the spec: policy parameters as an opaque serialized
blob (serialization round-trip taken as the identity). -/
abbrev Params : Type := List ℚ

/-- Append to a `collections.deque(maxlen = k)`: the oldest entries are
evicted so that at most `k` remain. -/
def pushMax {α : Type} (k : ℕ) (xs : List α) (x : α) : List α :=
  let ys := xs ++ [x]
  if k < ys.length then ys.drop (ys.length - k) else ys

/-- The default reward clipping function of `Actor.__init__`:
`lambda x: min(max(-1.0, x), 1.0)`. -/
def clip (x : ℚ) : ℚ := min (max (-1) x) 1

/-- `np.random.randint(lo, hi)`: a value uniform over `[lo, hi)` — the
upper bound is exclusive; `r` is the raw uniform draw. -/
def randint (lo hi r : ℕ) : ℕ := lo + r % (hi - lo)

/-- The table `gamma_nsteps = [gamma ** i for i in range(nstep_return + 1)]`
built at the start of `Actor.run`. -/
def gammaNsteps (cfg : Config) : List ℚ :=
  (List.range (cfg.nstep_return + 1)).map (fun i => cfg.gamma ^ i)

/-- The n-step reward of `Actor.run`:
`sum([gamma_nsteps[-(i + 2)] * step_buffer[i].reward for i in range(step_buffer.maxlen)])`.
The Python index `-(i + 2)` on the length-`(N+1)` table is index `N - 1 - i`. -/
def r_nstep (cfg : Config) (sb : List Transition) : ℚ :=
  ((List.range cfg.nstep_return).map (fun i =>
    (gammaNsteps cfg).getD (cfg.nstep_return - 1 - i) 0 * (sb.getD i default).reward)).sum

/-- The aggregated n-step transition pushed by `Actor.run`:
`Transition(step_buffer[0].state, step_buffer[0].action, r_nstep,
step_buffer[-1].next_state, step_buffer[-1].done)`.  The Python index `-1`
is `length - 1`. -/
def nstepTransition (cfg : Config) (sb : List Transition) : Transition :=
  { state := (sb.getD 0 default).state
    action := (sb.getD 0 default).action
    reward := r_nstep cfg sb
    next_state := (sb.getD (sb.length - 1) default).next_state
    done := (sb.getD (sb.length - 1) default).done }

/-- The emission step of `Actor.run`: when the step window is full
(`len(step_buffer) == step_buffer.maxlen`), push the aggregated n-step
transition into the local replay memory (modelled from the spec as a
bounded queue of capacity `mem_capacity`, evicting oldest first). -/
def emitNstep (cfg : Config) (mem : List Transition) (sb : List Transition) : List Transition :=
  if sb.length = cfg.nstep_return then pushMax cfg.mem_capacity mem (nstepTransition cfg sb)
  else mem

/-- Modelled from the spec: `ReplayMemory.sample(batch_size)` draws exactly
`batch_size` transitions from the buffer (the spec leaves the sampling
policy open; the claims depend only on which multiset is drawn when the
buffer holds exactly `batch_size` entries, where any without-replacement
sample takes everything — modelled as the first `batch_size` entries). -/
def sampleMem (mem : List Transition) (b : ℕ) : List Transition := mem.take b

/-- The publish phase of `Actor.run`: when `len(local_memory) >= batch_size`,
sample a batch, score it with discount `gamma_nsteps[-1]`, append the
(samples, priorities) pair as one record to the shared queue and clear the
local memory; otherwise do nothing.  Returns (new memory, new queue). -/
def doPublish (oracle : PriorityOracle) (cfg : Config) (mem : List Transition)
    (queue : List (List Transition × List ℚ)) :
    List Transition × List (List Transition × List ℚ) :=
  if cfg.batch_size ≤ mem.length then
    let samples := sampleMem mem cfg.batch_size
    ([], queue ++ [(samples, oracle.prios samples ((gammaNsteps cfg).getD cfg.nstep_return 0))])
  else (mem, queue)

/-- `Actor._pull_params`: fetch the parameter blob from the store; on a
miss leave the local parameters untouched, on a hit overwrite them
unconditionally with the stored value. -/
def pullParams {P : Type} (stored : Option P) (current : P) : P :=
  match stored with
  | none => current
  | some p => p

/-- The exponent to which `EPS_BASE = 0.4` is raised in `Actor.run`:
`1` when there is a single actor (the code then uses `EPS_BASE` directly),
otherwise `1.0 + (actor_no - 1.0) / (num_total_actors - 1.0) * EPS_ALPHA`
with `EPS_ALPHA = 7.0`. -/
def epsExponent (actor_no num_total : ℕ) : ℚ :=
  if num_total = 1 then 1
  else 1 + ((actor_no : ℚ) - 1) / ((num_total : ℚ) - 1) * 7

/-- The number of no-op actions executed in `Actor._initialize` at the
`k`-th reset: `np.random.randint(1, self.no_op_steps)` with
`no_op_steps = 30`. -/
def noopCount (rng : Rng) (cfg : Config) (k : ℕ) : ℕ :=
  randint 1 cfg.no_op_steps (rng.noop k)

/-- The frame stack rebuilt by `Actor._initialize` after `env.reset` at
clock `clock`: both channels of the seed observation are the same
grayscale screen, and the preprocessed tile is appended `buf_size` times
into the cleared deque. -/
def resetBuf (env : Env) (cfg : Config) (clock : ℕ) : List Tile :=
  List.replicate cfg.buf_size (preproc (env.screen clock) (env.screen clock))

/-- The mutable state of `Actor.run` between loop iterations, together
with the environment clock, the reset counter and the log of actions sent
to `env.step` (which records the frame-repetition and the no-op warmups). -/
structure AState where
  stateRep : List Tile
  imgBuf : List Tile
  stepBuffer : List Transition
  localMemory : List Transition
  queue : List (List Transition × List ℚ)
  policy : Params
  lengthEpisode : ℕ
  nEpisode : ℕ
  clock : ℕ
  resets : ℕ
  t : ℕ
  epsExp : ℚ
  actionLog : List ℕ

/-- The state at the top of the loop of `Actor.run`: `state = self.reset()`
(one `env.reset` tick, the refilled frame stack, then the no-op warmup),
empty step window and local memory, iteration counter 0, and the
exploration exponent computed once. -/
def initState (env : Env) (rng : Rng) (cfg : Config) (p0 : Params) : AState :=
  { stateRep := resetBuf env cfg 0
    imgBuf := resetBuf env cfg 0
    stepBuffer := []
    localMemory := []
    queue := []
    policy := p0
    lengthEpisode := 0
    nEpisode := 0
    clock := 1 + noopCount rng cfg 0
    resets := 1
    t := 0
    epsExp := epsExponent cfg.actor_no cfg.num_total_actors
    actionLog := List.replicate (noopCount rng cfg 0) 0 }

/-- The raw transition recorded for one decision step of `Actor.run`:
the chosen action is executed for 4 emulator sub-steps (clock ticks
`s.clock .. s.clock + 3`), rewards are summed and clipped, the variable
`done` is overwritten on every sub-step so the value kept is that of the
4th sub-step, and the appended tile is the preprocessed combination of
the grayscale screens read after the 3rd and 4th sub-steps (`i == 2` and
`i == 3` in the loop). -/
def decisionTransition (env : Env) (rng : Rng) (cfg : Config) (s : AState) : Transition :=
  { state := s.stateRep
    action := rng.act s.t
    reward := clip (env.reward s.clock + env.reward (s.clock + 1) +
      env.reward (s.clock + 2) + env.reward (s.clock + 3))
    next_state := pushMax cfg.buf_size s.imgBuf
      (preproc (env.screen (s.clock + 2)) (env.screen (s.clock + 3)))
    done := env.done (s.clock + 3) }

/-- One iteration of the loop of `Actor.run`: decision and 4 sub-steps,
step-window append and possible n-step emission, episode-boundary reset
(`if done or length_epsiode > 50000`), publish check, and the periodic
parameter pull (`if t > 0 and t % target_update == 0`). -/
def stepA (env : Env) (rng : Rng) (oracle : PriorityOracle)
    (store : ℕ → Option Params) (cfg : Config) (s : AState) : AState :=
  let tr := decisionTransition env rng cfg s
  let imgBuf1 := tr.next_state
  let sb1 := pushMax cfg.nstep_return s.stepBuffer tr
  let mem1 := emitNstep cfg s.localMemory sb1
  let clock1 := s.clock + 4
  let le1 := s.lengthEpisode + 4
  let log1 := s.actionLog ++ List.replicate 4 (rng.act s.t)
  let resetQ := tr.done || decide (50000 < le1)
  let n := noopCount rng cfg s.resets
  let pq := doPublish oracle cfg mem1 s.queue
  { stateRep := if resetQ then resetBuf env cfg clock1 else imgBuf1
    imgBuf := if resetQ then resetBuf env cfg clock1 else imgBuf1
    stepBuffer := if resetQ then [] else sb1
    localMemory := pq.1
    queue := pq.2
    policy := if 0 < s.t ∧ s.t % cfg.target_update = 0 then pullParams (store s.t) s.policy
      else s.policy
    lengthEpisode := if resetQ then 0 else le1
    nEpisode := if resetQ then s.nEpisode + 1 else s.nEpisode
    clock := if resetQ then clock1 + 1 + n else clock1
    resets := if resetQ then s.resets + 1 else s.resets
    t := s.t + 1
    epsExp := s.epsExp
    actionLog := if resetQ then log1 ++ List.replicate n 0 else log1 }

/-- The states the actor loop can be in at an iteration boundary: the
initial state, and anything reached from it by whole loop iterations. -/
inductive Reachable (env : Env) (rng : Rng) (oracle : PriorityOracle)
    (store : ℕ → Option Params) (cfg : Config) (p0 : Params) : AState → Prop
  | init : Reachable env rng oracle store cfg p0 (initState env rng cfg p0)
  | step {s : AState} : Reachable env rng oracle store cfg p0 s →
      Reachable env rng oracle store cfg p0 (stepA env rng oracle store cfg s)

/-! ### Concrete fixtures used to exercise the theorems -/

/-- The all-black emulator screen. -/
def zeroGray : Gray := fun _ _ => 0

/-- An environment that always rewards 0, never terminates and always
shows the black screen. -/
def constEnv : Env := { reward := fun _ => 0, done := fun _ => false, screen := fun _ => zeroGray }

/-- An environment that signals terminal on every emulator step. -/
def doneEnv : Env := { reward := fun _ => 0, done := fun _ => true, screen := fun _ => zeroGray }

/-- Degenerate random sources: every raw draw is 0, every chosen action 0. -/
def zeroRng : Rng := { noop := fun _ => 0, act := fun _ => 0 }

/-- A priority oracle scoring every transition 0. -/
def trivOracle : PriorityOracle :=
  { prios := fun b _ => b.map (fun _ => 0)
    prios_len := fun b _ => List.length_map b _ }

/-- A parameter store that never holds a value. -/
def noStore : ℕ → Option Params := fun _ => none

/-! ### Helper lemmas -/

theorem listSum_range_map (n : ℕ) (f : ℕ → ℚ) :
    ((List.range n).map f).sum = ∑ i in Finset.range n, f i := by
  induction n with
  | zero => simp
  | succ n ih =>
      rw [List.range_succ, List.map_append, List.sum_append, Finset.sum_range_succ, ih]
      simp

theorem gammaNsteps_getD (cfg : Config) {k : ℕ} (hk : k ≤ cfg.nstep_return) :
    (gammaNsteps cfg).getD k 0 = cfg.gamma ^ k := by
  have hk' : k < cfg.nstep_return + 1 := Nat.lt_succ_of_le hk
  rw [gammaNsteps, List.getD_eq_getD_get?, List.get?_map, List.get?_range hk']
  rfl

theorem pushMax_length {α : Type} (k : ℕ) (xs : List α) (x : α) :
    (pushMax k xs x).length = min k (xs.length + 1) := by
  unfold pushMax
  by_cases h : k < (xs ++ [x]).length
  · rw [if_pos h, List.length_drop]
    simp only [List.length_append, List.length_singleton] at h ⊢
    omega
  · rw [if_neg h]
    simp only [List.length_append, List.length_singleton, not_lt] at h ⊢
    omega

theorem pushMax_of_room {α : Type} {k : ℕ} {xs : List α} (x : α)
    (h : xs.length < k) : pushMax k xs x = xs ++ [x] := by
  unfold pushMax
  rw [if_neg]
  simp only [List.length_append, List.length_singleton, not_lt]
  omega

theorem pushMax_eq_append {α : Type} {k : ℕ} (xs : List α) (x : α) (hk : 1 ≤ k) :
    ∃ zs : List α, pushMax k xs x = zs ++ [x] := by
  simp only [pushMax]
  split
  · rename_i hlt
    simp only [List.length_append, List.length_singleton] at hlt ⊢
    refine ⟨xs.drop (xs.length + 1 - k), ?_⟩
    rw [List.drop_append_eq_append_drop]
    have h0 : xs.length + 1 - k - xs.length = 0 := by omega
    rw [h0]
    rfl
  · exact ⟨xs, rfl⟩

theorem getD_last_append {α : Type} [Inhabited α] (zs : List α) (x : α) :
    (zs ++ [x]).getD ((zs ++ [x]).length - 1) default = x := by
  rw [List.length_append, List.length_singleton, Nat.add_sub_cancel,
    List.getD_append_right _ _ _ _ le_rfl, Nat.sub_self]
  rfl

theorem mem_pushMax {α : Type} {k : ℕ} {xs : List α} {x y : α}
    (hy : y ∈ pushMax k xs x) : y ∈ xs ∨ y = x := by
  have h : y ∈ xs ++ [x] := by
    simp only [pushMax] at hy
    split at hy
    · exact List.drop_subset _ _ hy
    · exact hy
  rcases List.mem_append.mp h with h1 | h1
  · exact Or.inl h1
  · exact Or.inr (List.mem_singleton.mp h1)

/-! ### Claim C1: n-step aggregation -/

/-- Claim C1: whenever the step window holds exactly `N` raw transitions,
the actor pushes into the local replay buffer exactly one aggregated
transition, whose reward is `∑ i < N, γ^(N-1-i) * window[i].reward`, whose
state and action are those of `window[0]`, and whose next state and done
flag are those of `window[N-1]`. -/
theorem C1_nstep_aggregation (cfg : Config) (mem sb : List Transition)
    (hN : 1 ≤ cfg.nstep_return) (hlen : sb.length = cfg.nstep_return)
    (hcap : mem.length < cfg.mem_capacity) :
    emitNstep cfg mem sb = mem ++ [nstepTransition cfg sb] ∧
    (nstepTransition cfg sb).reward =
      ∑ i in Finset.range cfg.nstep_return,
        cfg.gamma ^ (cfg.nstep_return - 1 - i) * (sb.getD i default).reward ∧
    (nstepTransition cfg sb).state = (sb.getD 0 default).state ∧
    (nstepTransition cfg sb).action = (sb.getD 0 default).action ∧
    (nstepTransition cfg sb).next_state = (sb.getD (cfg.nstep_return - 1) default).next_state ∧
    (nstepTransition cfg sb).done = (sb.getD (cfg.nstep_return - 1) default).done := by
  refine ⟨?_, ?_, rfl, rfl, ?_, ?_⟩
  · rw [emitNstep, if_pos hlen, pushMax_of_room _ hcap]
  · show r_nstep cfg sb = _
    rw [r_nstep, listSum_range_map]
    refine Finset.sum_congr rfl fun i hi => ?_
    have hle : cfg.nstep_return - 1 - i ≤ cfg.nstep_return := by omega
    rw [gammaNsteps_getD cfg hle]
  · show (sb.getD (sb.length - 1) default).next_state = _
    rw [hlen]
  · show (sb.getD (sb.length - 1) default).done = _
    rw [hlen]

/-- Witness for C1: the default configuration (`N = 3`, `γ = 0.999`) on a
window of three default transitions and an empty local memory. -/
theorem C1_nstep_aggregation_witness :
    emitNstep defaultConfig [] (List.replicate 3 default) =
      [] ++ [nstepTransition defaultConfig (List.replicate 3 default)] ∧
    (nstepTransition defaultConfig (List.replicate 3 default)).reward =
      ∑ i in Finset.range defaultConfig.nstep_return,
        defaultConfig.gamma ^ (defaultConfig.nstep_return - 1 - i) *
          ((List.replicate 3 (default : Transition)).getD i default).reward ∧
    (nstepTransition defaultConfig (List.replicate 3 default)).state =
      ((List.replicate 3 (default : Transition)).getD 0 default).state ∧
    (nstepTransition defaultConfig (List.replicate 3 default)).action =
      ((List.replicate 3 (default : Transition)).getD 0 default).action ∧
    (nstepTransition defaultConfig (List.replicate 3 default)).next_state =
      ((List.replicate 3 (default : Transition)).getD
        (defaultConfig.nstep_return - 1) default).next_state ∧
    (nstepTransition defaultConfig (List.replicate 3 default)).done =
      ((List.replicate 3 (default : Transition)).getD
        (defaultConfig.nstep_return - 1) default).done :=
  C1_nstep_aggregation defaultConfig [] (List.replicate 3 default)
    (by decide) (by decide) (by decide)

/-! ### Claim C3: per-actor exploration rate -/

/-- Claim C3: the exploration exponent is computed once before the loop
and never modified afterwards; it is `1` when there is a single actor (so
`ε = 0.4^1 = 0.4`), and `1 + (actor_no - 1)/(num_total - 1) * 7`
otherwise; for 4 total actors, actor 1 gets `ε = 0.4` exactly and actor 4
gets `ε = 0.4^8`. -/
theorem C3_epsilon (env : Env) (rng : Rng) (oracle : PriorityOracle)
    (store : ℕ → Option Params) (cfg : Config) (p0 : Params) (s : AState)
    (h : Reachable env rng oracle store cfg p0 s) :
    s.epsExp = epsExponent cfg.actor_no cfg.num_total_actors ∧
    (cfg.num_total_actors = 1 →
      Real.rpow 0.4 ((epsExponent cfg.actor_no cfg.num_total_actors : ℚ) : ℝ) = 0.4) ∧
    Real.rpow 0.4 ((epsExponent 1 4 : ℚ) : ℝ) = 0.4 ∧
    Real.rpow 0.4 ((epsExponent 4 4 : ℚ) : ℝ) = 0.4 ^ (8 : ℕ) := by
  refine ⟨?_, ?_, ?_, ?_⟩
  · induction h with
    | init => rfl
    | step _ ih => exact ih
  · intro h1
    rw [h1]
    have he : epsExponent cfg.actor_no 1 = 1 := if_pos rfl
    rw [he]
    push_cast
    exact Real.rpow_one _
  · have he : (epsExponent 1 4 : ℚ) = 1 := by norm_num [epsExponent]
    rw [he]
    push_cast
    exact Real.rpow_one _
  · have he : (epsExponent 4 4 : ℚ) = 8 := by norm_num [epsExponent]
    rw [he]
    have hc : ((8 : ℚ) : ℝ) = ((8 : ℕ) : ℝ) := by norm_num
    rw [hc]
    exact Real.rpow_natCast _ _

/-- Witness for C3 at the initial state of a default-configured actor. -/
theorem C3_epsilon_witness :
    (initState constEnv zeroRng defaultConfig []).epsExp =
      epsExponent defaultConfig.actor_no defaultConfig.num_total_actors ∧
    Real.rpow 0.4 ((epsExponent 1 4 : ℚ) : ℝ) = 0.4 ∧
    Real.rpow 0.4 ((epsExponent 4 4 : ℚ) : ℝ) = 0.4 ^ (8 : ℕ) :=
  ⟨(C3_epsilon constEnv zeroRng trivOracle noStore defaultConfig [] _ Reachable.init).1,
   (C3_epsilon constEnv zeroRng trivOracle noStore defaultConfig [] _ Reachable.init).2.2⟩

/-! ### Claim C5: no-op warmup count -/

/-- Counterexample to claim C5: with the configured `no_op_steps = 30`,
the warmup count `np.random.randint(1, 30)` never equals 30 — the upper
bound of `randint` is exclusive, so no random source realizes 30 no-ops
and the count does not range over all of `[1, 30]`. -/
theorem C5_noop_counterexample :
    ¬ ∃ (rng : Rng) (k : ℕ), noopCount rng defaultConfig k = 30 := by
  rintro ⟨rng, k, h⟩
  have h30 : defaultConfig.no_op_steps = 30 := rfl
  rw [noopCount, randint, h30] at h
  have hm : rng.noop k % (30 - 1) < 29 := Nat.mod_lt _ (by decide)
  omega

/-- Claim C5 as amended: on every reset the warmup count lies in
`[1, 29]` — the upper bound of `np.random.randint(1, 30)` is exclusive —
and every value of that range is realized by some random source. -/
theorem C5_noop_range (rng : Rng) (cfg : Config) (k : ℕ) (h : cfg.no_op_steps = 30) :
    (1 ≤ noopCount rng cfg k ∧ noopCount rng cfg k ≤ 29) ∧
    (∀ m, 1 ≤ m → m ≤ 29 → ∃ rng' : Rng, noopCount rng' cfg k = m) := by
  constructor
  · rw [noopCount, randint, h]
    have hm : rng.noop k % (30 - 1) < 29 := Nat.mod_lt _ (by decide)
    omega
  · intro m h1 h2
    refine ⟨{ noop := fun _ => m - 1, act := fun _ => 0 }, ?_⟩
    rw [noopCount, randint, h]
    show 1 + (m - 1) % (30 - 1) = m
    rw [Nat.mod_eq_of_lt (by omega)]
    omega

/-- Witness for C5 (amended) at the default configuration. -/
theorem C5_noop_range_witness :
    1 ≤ noopCount zeroRng defaultConfig 0 ∧ noopCount zeroRng defaultConfig 0 ≤ 29 :=
  (C5_noop_range zeroRng defaultConfig 0 rfl).1

/-! ### Claim C8: parameter synchronization -/

/-- A bare actor state used to exercise the parameter-sync theorem. -/
def plainState (t : ℕ) : AState :=
  { stateRep := [], imgBuf := [], stepBuffer := [], localMemory := [], queue := []
    policy := [], lengthEpisode := 0, nEpisode := 0, clock := 0, resets := 0, t := t
    epsExp := 1, actionLog := [] }

/-- A parameter store that always holds the one-entry blob `[1]`. -/
def oneStore : ℕ → Option Params := fun _ => some [1]

/-- Claim C8: a parameter-sync attempt that finds no stored value leaves
the local policy parameters entirely unchanged — in particular a loop
iteration whose store read misses never changes the policy — and a sync
that finds a value overwrites the local parameters unconditionally with
the stored value, with no version or staleness check. -/
theorem C8_param_sync (env : Env) (rng : Rng) (oracle : PriorityOracle)
    (store : ℕ → Option Params) (cfg : Config) (s : AState) (q : Params) :
    (∀ p : Params, pullParams none p = p) ∧
    (∀ p : Params, pullParams (some q) p = q) ∧
    (store s.t = none → (stepA env rng oracle store cfg s).policy = s.policy) ∧
    (store s.t = some q → 0 < s.t → s.t % cfg.target_update = 0 →
      (stepA env rng oracle store cfg s).policy = q) := by
  refine ⟨fun _ => rfl, fun _ => rfl, ?_, ?_⟩
  · intro h
    show (if 0 < s.t ∧ s.t % cfg.target_update = 0 then pullParams (store s.t) s.policy
      else s.policy) = s.policy
    split
    · rw [h]
      rfl
    · rfl
  · intro h h1 h2
    show (if 0 < s.t ∧ s.t % cfg.target_update = 0 then pullParams (store s.t) s.policy
      else s.policy) = q
    rw [if_pos ⟨h1, h2⟩, h]
    rfl

/-- Witness for C8: a store miss at a sync boundary leaves the policy
unchanged, a hit overwrites it with the stored blob. -/
theorem C8_param_sync_witness :
    (stepA constEnv zeroRng trivOracle noStore defaultConfig (plainState 200)).policy
      = (plainState 200).policy ∧
    (stepA constEnv zeroRng trivOracle oneStore defaultConfig (plainState 200)).policy = [1] :=
  ⟨(C8_param_sync constEnv zeroRng trivOracle noStore defaultConfig (plainState 200) []).2.2.1 rfl,
   (C8_param_sync constEnv zeroRng trivOracle oneStore defaultConfig
      (plainState 200) [1]).2.2.2 rfl (by decide) (by decide)⟩

/-! ### Claim C2: publish threshold -/

/-- Claim C2: when the local replay buffer's occupancy reaches the batch
threshold `B`, the actor performs exactly one publish operation: it
samples exactly `B` transitions from the buffer, obtains exactly `B`
priority weights from the priority-scoring oracle called with discount
`γ^N` (the last entry of the `gamma_nsteps` table), appends the
(samples, priorities) pair as a single record to the shared queue, and
the buffer's occupancy is 0 immediately afterwards. -/
theorem C2_publish_threshold (oracle : PriorityOracle) (cfg : Config)
    (mem : List Transition) (queue : List (List Transition × List ℚ))
    (h : mem.length = cfg.batch_size) :
    (doPublish oracle cfg mem queue).2 =
      queue ++ [(sampleMem mem cfg.batch_size,
        oracle.prios (sampleMem mem cfg.batch_size) (cfg.gamma ^ cfg.nstep_return))] ∧
    (sampleMem mem cfg.batch_size).length = cfg.batch_size ∧
    (oracle.prios (sampleMem mem cfg.batch_size) (cfg.gamma ^ cfg.nstep_return)).length
      = cfg.batch_size ∧
    (doPublish oracle cfg mem queue).1 = [] := by
  have hge : cfg.batch_size ≤ mem.length := le_of_eq h.symm
  have hg : (gammaNsteps cfg).getD cfg.nstep_return 0 = cfg.gamma ^ cfg.nstep_return :=
    gammaNsteps_getD cfg le_rfl
  have hlen : (sampleMem mem cfg.batch_size).length = cfg.batch_size := by
    rw [sampleMem, List.length_take, h]
    omega
  refine ⟨?_, hlen, ?_, ?_⟩
  · simp only [doPublish, if_pos hge, hg]
  · rw [oracle.prios_len, hlen]
  · simp only [doPublish, if_pos hge]

/-- A small configuration (batch threshold 2) used to exercise the
publish theorem on a concrete buffer. -/
def smallCfg : Config := { defaultConfig with batch_size := 2 }

/-- Witness for C2: publishing a concrete two-element buffer at threshold 2. -/
theorem C2_publish_threshold_witness :
    (doPublish trivOracle smallCfg (List.replicate 2 default) []).2 =
      [] ++ [(sampleMem (List.replicate 2 default) smallCfg.batch_size,
        trivOracle.prios (sampleMem (List.replicate 2 default) smallCfg.batch_size)
          (smallCfg.gamma ^ smallCfg.nstep_return))] ∧
    (sampleMem (List.replicate 2 default) smallCfg.batch_size).length = smallCfg.batch_size ∧
    (trivOracle.prios (sampleMem (List.replicate 2 default) smallCfg.batch_size)
      (smallCfg.gamma ^ smallCfg.nstep_return)).length = smallCfg.batch_size ∧
    (doPublish trivOracle smallCfg (List.replicate 2 default) []).1 = [] :=
  C2_publish_threshold trivOracle smallCfg (List.replicate 2 default) [] (by decide)

/-! ### Claim C4: done propagation across the 4 sub-steps -/

/-- The environment of the C4 counterexample: `done` is reported exactly
on emulator tick 2 — the 1st sub-step of the first decision of a run
whose initial reset and warmup consume ticks 0 and 1 — and on no other
tick; in particular the 4th sub-step (tick 5) reports `done = false`. -/
def c4Env : Env := { reward := fun _ => 0, done := fun c => c == 2, screen := fun _ => zeroGray }

/-- Counterexample to claim C4: with `c4Env`, the first decision step of
the run observes `done = true` on its 1st sub-step, yet the transition
recorded for that decision step carries `done = false`: the loop body of
`Actor.run` overwrites `done` on every sub-step, so only the 4th
sub-step's flag survives. -/
theorem C4_done_counterexample :
    c4Env.done ((initState c4Env zeroRng defaultConfig []).clock) = true ∧
    (((stepA c4Env zeroRng trivOracle noStore defaultConfig
        (initState c4Env zeroRng defaultConfig [])).stepBuffer).getD 0 default).done
      = false :=
  ⟨rfl, rfl⟩

/-- Claim C4 as amended: for every decision step, the transition recorded
for that step carries exactly the `done` flag reported on the 4th (last)
sub-step — unconditionally: if the 4th sub-step reports `done = true`, the
transition carries `done = true`, and a `done` observed only on an earlier
sub-step does not propagate.  The aggregated n-step transition derived
from the window right after the append carries that same flag (this is
how the flag flows into the emission), and when no episode boundary fires
the appended window is exactly the step buffer the next iteration sees. -/
theorem C4_done_last_substep (env : Env) (rng : Rng) (oracle : PriorityOracle)
    (store : ℕ → Option Params) (cfg : Config) (s : AState) :
    (decisionTransition env rng cfg s).done = env.done (s.clock + 3) ∧
    (env.done (s.clock + 3) = true → (decisionTransition env rng cfg s).done = true) ∧
    (1 ≤ cfg.nstep_return →
      (nstepTransition cfg (pushMax cfg.nstep_return s.stepBuffer
        (decisionTransition env rng cfg s))).done = env.done (s.clock + 3)) ∧
    ((env.done (s.clock + 3) || decide (50000 < s.lengthEpisode + 4)) = false →
      (stepA env rng oracle store cfg s).stepBuffer =
        pushMax cfg.nstep_return s.stepBuffer (decisionTransition env rng cfg s)) := by
  have hd : (decisionTransition env rng cfg s).done = env.done (s.clock + 3) := rfl
  refine ⟨hd, fun h => h, ?_, ?_⟩
  · intro hN
    obtain ⟨zs, hz⟩ := pushMax_eq_append s.stepBuffer (decisionTransition env rng cfg s) hN
    show ((pushMax cfg.nstep_return s.stepBuffer (decisionTransition env rng cfg s)).getD
        ((pushMax cfg.nstep_return s.stepBuffer
          (decisionTransition env rng cfg s)).length - 1) default).done =
      env.done (s.clock + 3)
    rw [hz, getD_last_append]
    exact hd
  · intro hno
    simp [stepA, hd, hno]

/-- Witness for C4 (amended): in the always-terminal environment the first
decision step records `done = true` — the 4th sub-step's flag — and the
n-step aggregate built from the window carries that flag; in the
never-terminal environment the window takes its normal sliding update. -/
theorem C4_done_last_substep_witness :
    (decisionTransition doneEnv zeroRng defaultConfig
      (initState doneEnv zeroRng defaultConfig [])).done = true ∧
    (nstepTransition defaultConfig (pushMax defaultConfig.nstep_return
      (initState doneEnv zeroRng defaultConfig []).stepBuffer
      (decisionTransition doneEnv zeroRng defaultConfig
        (initState doneEnv zeroRng defaultConfig [])))).done =
      doneEnv.done ((initState doneEnv zeroRng defaultConfig []).clock + 3) ∧
    (stepA constEnv zeroRng trivOracle noStore defaultConfig
        (initState constEnv zeroRng defaultConfig [])).stepBuffer =
      pushMax defaultConfig.nstep_return
        (initState constEnv zeroRng defaultConfig []).stepBuffer
        (decisionTransition constEnv zeroRng defaultConfig
          (initState constEnv zeroRng defaultConfig [])) :=
  ⟨(C4_done_last_substep doneEnv zeroRng trivOracle noStore defaultConfig _).2.1 rfl,
   (C4_done_last_substep doneEnv zeroRng trivOracle noStore defaultConfig _).2.2.1 (by decide),
   (C4_done_last_substep constEnv zeroRng trivOracle noStore defaultConfig _).2.2.2 (by decide)⟩

/-! ### Claim C9: frame repetition and tile construction -/

/-- Claim C9: each decision step performs exactly 4 emulator sub-steps
with the same chosen action — 4 copies of the one chosen action are
appended to the action log and the clock advances by exactly 4 when no
episode boundary fires — the summed reward covers all 4 sub-steps, and
the tile appended to the frame stack is the preprocessed pixel-wise
maximum of the grayscale screens read after the 3rd and 4th sub-steps
only: the screens of the 1st and 2nd sub-steps do not occur in it. -/
theorem C9_frame_repeat (env : Env) (rng : Rng) (oracle : PriorityOracle)
    (store : ℕ → Option Params) (cfg : Config) (s : AState)
    (hno : (env.done (s.clock + 3) || decide (50000 < s.lengthEpisode + 4)) = false) :
    (stepA env rng oracle store cfg s).imgBuf =
      pushMax cfg.buf_size s.imgBuf
        (preproc (env.screen (s.clock + 2)) (env.screen (s.clock + 3))) ∧
    (stepA env rng oracle store cfg s).actionLog =
      s.actionLog ++ List.replicate 4 (rng.act s.t) ∧
    (stepA env rng oracle store cfg s).clock = s.clock + 4 ∧
    (decisionTransition env rng cfg s).reward =
      clip (env.reward s.clock + env.reward (s.clock + 1) +
        env.reward (s.clock + 2) + env.reward (s.clock + 3)) := by
  have hd : (decisionTransition env rng cfg s).done = env.done (s.clock + 3) := rfl
  refine ⟨?_, ?_, ?_, rfl⟩ <;> simp [stepA, hd, hno, decisionTransition]

/-- Witness for C9: the first decision step of a run in the
never-terminating environment. -/
theorem C9_frame_repeat_witness :
    (stepA constEnv zeroRng trivOracle noStore defaultConfig
        (initState constEnv zeroRng defaultConfig [])).imgBuf =
      pushMax defaultConfig.buf_size (initState constEnv zeroRng defaultConfig []).imgBuf
        (preproc (constEnv.screen ((initState constEnv zeroRng defaultConfig []).clock + 2))
          (constEnv.screen ((initState constEnv zeroRng defaultConfig []).clock + 3))) ∧
    (stepA constEnv zeroRng trivOracle noStore defaultConfig
        (initState constEnv zeroRng defaultConfig [])).actionLog =
      (initState constEnv zeroRng defaultConfig []).actionLog ++
        List.replicate 4 (zeroRng.act (initState constEnv zeroRng defaultConfig []).t) ∧
    (stepA constEnv zeroRng trivOracle noStore defaultConfig
        (initState constEnv zeroRng defaultConfig [])).clock =
      (initState constEnv zeroRng defaultConfig []).clock + 4 ∧
    (decisionTransition constEnv zeroRng defaultConfig
        (initState constEnv zeroRng defaultConfig [])).reward =
      clip (constEnv.reward (initState constEnv zeroRng defaultConfig []).clock +
        constEnv.reward ((initState constEnv zeroRng defaultConfig []).clock + 1) +
        constEnv.reward ((initState constEnv zeroRng defaultConfig []).clock + 2) +
        constEnv.reward ((initState constEnv zeroRng defaultConfig []).clock + 3)) :=
  C9_frame_repeat constEnv zeroRng trivOracle noStore defaultConfig _ (by decide)

/-! ### Claim C6: frame-stack invariant -/

/-- Every pixel of the tile lies in the unit interval. -/
def tileBounded (tile : Tile) : Prop := ∀ i j, 0 ≤ tile i j ∧ tile i j ≤ 1

theorem convex2_bounds (w a b M : ℚ) (hw0 : 0 ≤ w) (hw1 : w ≤ 1)
    (ha0 : 0 ≤ a) (haM : a ≤ M) (hb0 : 0 ≤ b) (hbM : b ≤ M) :
    0 ≤ (1 - w) * a + w * b ∧ (1 - w) * a + w * b ≤ M := by
  constructor
  · have h1 : 0 ≤ (1 - w) * a := mul_nonneg (by linarith) ha0
    have h2 : 0 ≤ w * b := mul_nonneg hw0 hb0
    linarith
  · have h1 : (1 - w) * a ≤ (1 - w) * M := mul_le_mul_of_nonneg_left haM (by linarith)
    have h2 : w * b ≤ w * M := mul_le_mul_of_nonneg_left hbM hw0
    linarith

theorem bilinearAt_bounds (img : ℕ → ℕ → ℚ) (H W : ℕ) (x y : ℚ) (M : ℚ)
    (h : ∀ r c, 0 ≤ img r c ∧ img r c ≤ M) :
    0 ≤ bilinearAt img H W x y ∧ bilinearAt img H W x y ≤ M := by
  have hdr0 : (0 : ℚ) ≤ Int.fract x := Int.fract_nonneg x
  have hdr1 : Int.fract x ≤ 1 := le_of_lt (Int.fract_lt_one x)
  have hdc0 : (0 : ℚ) ≤ Int.fract y := Int.fract_nonneg y
  have hdc1 : Int.fract y ≤ 1 := le_of_lt (Int.fract_lt_one y)
  have h0 := convex2_bounds (Int.fract y)
    (img (clampIdx H ⌊x⌋) (clampIdx W ⌊y⌋)) (img (clampIdx H ⌊x⌋) (clampIdx W (⌊y⌋ + 1))) M
    hdc0 hdc1 (h _ _).1 (h _ _).2 (h _ _).1 (h _ _).2
  have h1 := convex2_bounds (Int.fract y)
    (img (clampIdx H (⌊x⌋ + 1)) (clampIdx W ⌊y⌋))
    (img (clampIdx H (⌊x⌋ + 1)) (clampIdx W (⌊y⌋ + 1))) M
    hdc0 hdc1 (h _ _).1 (h _ _).2 (h _ _).1 (h _ _).2
  exact convex2_bounds (Int.fract x)
    ((1 - Int.fract y) * img (clampIdx H ⌊x⌋) (clampIdx W ⌊y⌋) +
      Int.fract y * img (clampIdx H ⌊x⌋) (clampIdx W (⌊y⌋ + 1)))
    ((1 - Int.fract y) * img (clampIdx H (⌊x⌋ + 1)) (clampIdx W ⌊y⌋) +
      Int.fract y * img (clampIdx H (⌊x⌋ + 1)) (clampIdx W (⌊y⌋ + 1))) M
    hdr0 hdr1 h0.1 h0.2 h1.1 h1.2

theorem grayMaxImg_bounds (s0 s1 : Gray) (r c : ℕ) :
    0 ≤ grayMaxImg s0 s1 r c ∧ grayMaxImg s0 s1 r c ≤ 255 := by
  unfold grayMaxImg
  split
  · split
    · rename_i hr hc
      refine ⟨Nat.cast_nonneg _, ?_⟩
      have hm : max (s0 ⟨r, hr⟩ ⟨c, hc⟩).val (s1 ⟨r, hr⟩ ⟨c, hc⟩).val ≤ 255 :=
        max_le (Fin.is_le _) (Fin.is_le _)
      exact_mod_cast hm
    · exact ⟨le_rfl, by norm_num⟩
  · exact ⟨le_rfl, by norm_num⟩

theorem preproc_bounded (s0 s1 : Gray) : tileBounded (preproc s0 s1) := by
  intro i j
  have hb := bilinearAt_bounds (grayMaxImg s0 s1) 210 160
    (srcCoord (210/84) i.val) (srcCoord (160/84) j.val) 255
    (fun r c => grayMaxImg_bounds s0 s1 r c)
  constructor
  · show 0 ≤ resize84 (grayMaxImg s0 s1) i j / 255
    exact div_nonneg hb.1 (by norm_num)
  · show resize84 (grayMaxImg s0 s1) i j / 255 ≤ 1
    rw [div_le_one (by norm_num)]
    exact hb.2

/-- After one loop iteration the frame stack is either the re-seeded
post-reset stack or the normal sliding-window update. -/
theorem stepA_imgBuf_cases (env : Env) (rng : Rng) (oracle : PriorityOracle)
    (store : ℕ → Option Params) (cfg : Config) (s : AState) :
    (stepA env rng oracle store cfg s).imgBuf = resetBuf env cfg (s.clock + 4) ∨
    (stepA env rng oracle store cfg s).imgBuf =
      pushMax cfg.buf_size s.imgBuf
        (preproc (env.screen (s.clock + 2)) (env.screen (s.clock + 3))) := by
  have hd : (decisionTransition env rng cfg s).done = env.done (s.clock + 3) := rfl
  by_cases hq : (env.done (s.clock + 3) || decide (50000 < s.lengthEpisode + 4)) = true
  · left
    simp [stepA, hd, hq]
  · right
    have hq' : (env.done (s.clock + 3) || decide (50000 < s.lengthEpisode + 4)) = false :=
      Bool.eq_false_iff.mpr hq
    simp [stepA, hd, hq', decisionTransition]

/-- Claim C6: in every reachable iteration-boundary state the frame stack
holds exactly `buf_size` preprocessed tiles, and every pixel value of
every tile lies in `[0, 1]`; the stack is never partially filled. -/
theorem C6_framestack_invariant (env : Env) (rng : Rng) (oracle : PriorityOracle)
    (store : ℕ → Option Params) (cfg : Config) (p0 : Params) (s : AState)
    (h : Reachable env rng oracle store cfg p0 s) :
    s.imgBuf.length = cfg.buf_size ∧ ∀ tile ∈ s.imgBuf, tileBounded tile := by
  induction h with
  | init =>
      constructor
      · exact List.length_replicate _ _
      · intro tile ht
        rw [List.eq_of_mem_replicate ht]
        exact preproc_bounded _ _
  | @step s' h' ih =>
      obtain ⟨ih1, ih2⟩ := ih
      rcases stepA_imgBuf_cases env rng oracle store cfg s' with hc | hc <;> rw [hc]
      · constructor
        · exact List.length_replicate _ _
        · intro tile ht
          rw [List.eq_of_mem_replicate ht]
          exact preproc_bounded _ _
      · constructor
        · rw [pushMax_length, ih1]
          omega
        · intro tile ht
          rcases mem_pushMax ht with h1 | h1
          · exact ih2 tile h1
          · rw [h1]
            exact preproc_bounded _ _

/-- Witness for C6 at the initial state of a default-configured actor. -/
theorem C6_framestack_invariant_witness :
    (initState constEnv zeroRng defaultConfig []).imgBuf.length = defaultConfig.buf_size :=
  (C6_framestack_invariant constEnv zeroRng trivOracle noStore defaultConfig [] _
    Reachable.init).1

/-! ### Claim C7: episode reset boundary -/

/-- Claim C7: if a decision step observes the terminal flag (on its 4th
sub-step, the one retained) or pushes the in-episode sub-step counter
beyond the 50,000 cap, then before the next decision the step window is
cleared, the frame stack is replaced by the full re-seeded post-reset
stack, the in-episode counter restarts at 0, and a no-op warmup of at
least one emulator step runs after the reset tick; if neither condition
holds, neither buffer is cleared — both take exactly their normal
sliding-window updates and the counter advances by the 4 sub-steps. -/
theorem C7_reset_boundary (env : Env) (rng : Rng) (oracle : PriorityOracle)
    (store : ℕ → Option Params) (cfg : Config) (s : AState) :
    ((env.done (s.clock + 3) || decide (50000 < s.lengthEpisode + 4)) = true →
      (stepA env rng oracle store cfg s).imgBuf = resetBuf env cfg (s.clock + 4) ∧
      (stepA env rng oracle store cfg s).imgBuf.length = cfg.buf_size ∧
      (stepA env rng oracle store cfg s).stepBuffer = [] ∧
      (stepA env rng oracle store cfg s).lengthEpisode = 0 ∧
      (stepA env rng oracle store cfg s).clock =
        s.clock + 4 + 1 + noopCount rng cfg s.resets ∧
      1 ≤ noopCount rng cfg s.resets) ∧
    ((env.done (s.clock + 3) || decide (50000 < s.lengthEpisode + 4)) = false →
      (stepA env rng oracle store cfg s).imgBuf =
        pushMax cfg.buf_size s.imgBuf
          (preproc (env.screen (s.clock + 2)) (env.screen (s.clock + 3))) ∧
      (stepA env rng oracle store cfg s).stepBuffer =
        pushMax cfg.nstep_return s.stepBuffer (decisionTransition env rng cfg s) ∧
      (stepA env rng oracle store cfg s).lengthEpisode = s.lengthEpisode + 4 ∧
      (stepA env rng oracle store cfg s).clock = s.clock + 4) := by
  have hd : (decisionTransition env rng cfg s).done = env.done (s.clock + 3) := rfl
  constructor
  · intro hq
    refine ⟨?_, ?_, ?_, ?_, ?_, Nat.le_add_right 1 _⟩ <;>
      simp [stepA, hd, hq, List.length_replicate, resetBuf]
  · intro hq
    refine ⟨?_, ?_, ?_, ?_⟩ <;> simp [stepA, hd, hq, decisionTransition]

/-- Witness for C7: the always-terminal environment clears the step
window; the never-terminal environment advances the clock by exactly the
4 sub-steps. -/
theorem C7_reset_boundary_witness :
    (stepA doneEnv zeroRng trivOracle noStore defaultConfig
      (initState doneEnv zeroRng defaultConfig [])).stepBuffer = [] ∧
    (stepA constEnv zeroRng trivOracle noStore defaultConfig
        (initState constEnv zeroRng defaultConfig [])).clock =
      (initState constEnv zeroRng defaultConfig []).clock + 4 :=
  ⟨((C7_reset_boundary doneEnv zeroRng trivOracle noStore defaultConfig _).1
      (by decide)).2.2.1,
   ((C7_reset_boundary constEnv zeroRng trivOracle noStore defaultConfig _).2
      (by decide)).2.2.2⟩

/-! ### Claim C10: local replay buffer occupancy -/

theorem emitNstep_length_le (cfg : Config) (mem sb : List Transition) :
    (emitNstep cfg mem sb).length ≤ mem.length + 1 := by
  rw [emitNstep]
  split
  · rw [pushMax_length]
    omega
  · omega

/-- Claim C10: in every reachable iteration-boundary state the local
replay buffer holds strictly fewer than `B` transitions; since at most
one aggregated transition is inserted per iteration and the flush check
runs in the same iteration, the memory the publish check examines never
exceeds `B`, and whenever the threshold is crossed the buffer holds
exactly `B` transitions and the sample is the entire buffer — the flush
discards nothing unsampled. -/
theorem C10_occupancy (env : Env) (rng : Rng) (oracle : PriorityOracle)
    (store : ℕ → Option Params) (cfg : Config) (p0 : Params) (s : AState)
    (hB : 1 ≤ cfg.batch_size) (h : Reachable env rng oracle store cfg p0 s) :
    s.localMemory.length < cfg.batch_size ∧
    ∀ sb : List Transition,
      (emitNstep cfg s.localMemory sb).length ≤ cfg.batch_size ∧
      (cfg.batch_size ≤ (emitNstep cfg s.localMemory sb).length →
        (emitNstep cfg s.localMemory sb).length = cfg.batch_size ∧
        sampleMem (emitNstep cfg s.localMemory sb) cfg.batch_size =
          emitNstep cfg s.localMemory sb) := by
  have hlt : s.localMemory.length < cfg.batch_size := by
    cases h with
    | init => simpa using hB
    | @step s' h' =>
        show (doPublish oracle cfg
          (emitNstep cfg s'.localMemory (pushMax cfg.nstep_return s'.stepBuffer
            (decisionTransition env rng cfg s'))) s'.queue).1.length < cfg.batch_size
        unfold doPublish
        split
        · simpa using hB
        · rename_i hn
          simp only [not_le] at hn
          exact hn
  refine ⟨hlt, fun sb => ?_⟩
  have hle : (emitNstep cfg s.localMemory sb).length ≤ cfg.batch_size := by
    have := emitNstep_length_le cfg s.localMemory sb
    omega
  refine ⟨hle, fun hge => ?_⟩
  have heq : (emitNstep cfg s.localMemory sb).length = cfg.batch_size :=
    le_antisymm hle hge
  refine ⟨heq, ?_⟩
  rw [sampleMem, ← heq, List.take_length]

/-- Witness for C10 at the initial state of a default-configured actor. -/
theorem C10_occupancy_witness :
    (initState constEnv zeroRng defaultConfig []).localMemory.length
      < defaultConfig.batch_size :=
  (C10_occupancy constEnv zeroRng trivOracle noStore defaultConfig [] _
    (by decide) Reachable.init).1

end ApeX
